import Mathlib

/-
Verification of the anonimizator PDF mutation and job-lifecycle pipeline.

The definitions below are a shallow embedding of the Python backend:
  * `Job` mirrors the persisted job record (backend/app/models/job.py),
    with the fields the verified routes read and write.
  * The job-update definitions mirror the state mutations performed by the
    routes in backend/app/api/jobs.py (`text_replace`, `delete_blocks`,
    `delete_pages`, `retry_job`).
  * `add_redaction`, `applyRedactionsTrace` mirror
    backend/app/services/pdf_processor.py (`PDFAnonymizer`).
  * `runAnalysis`, `pageCapStep`, `failJob` mirror the Celery tasks in
    backend/app/workers/tasks.py.
PDF library calls (PyMuPDF) are modelled by their effect as documented in
the code itself: redaction annotations plus `apply_redactions` remove the
covered text from the content stream, while `draw_rect`/`insert_text`
only add visual content on top of the page.
-/

/-- Normalized bounding box, each coordinate a percentage (0-100) of the
page width/height, exactly as produced by the AI findings. -/
structure BBox where
  x : ℚ
  y : ℚ
  w : ℚ
  h : ℚ
deriving DecidableEq

/-- Absolute page-point rectangle (x0, y0) top-left to (x1, y1). -/
structure Rect where
  x0 : ℚ
  y0 : ℚ
  x1 : ℚ
  y1 : ℚ
deriving DecidableEq

/-- One AI-detected document part, as stored in `sections_json`. -/
structure SectionM where
  id : String
  confidence : ℚ
deriving DecidableEq

/-- One AI-detected sensitive region, as stored in `findings_json`
(page is 1-indexed, exactly as the classifier returns it). -/
structure FindingM where
  id : String
  page : ℤ
  bbox : BBox
  suggested_action : String
  confidence : ℚ
deriving DecidableEq

/-- The job record (backend/app/models/job.py), restricted to the fields
the verified operations read or write.  `completed` abstracts the
`completed_at` timestamp (set vs not set). -/
structure Job where
  id : String
  original_filename : String
  mode : String
  status : String
  progress : ℕ
  input_path : String
  output_pdf_path : Option String
  page_count : ℕ
  error_message : Option String
  completed : Bool
  sections : List SectionM
  findings : List FindingM
  confidence : ℚ
deriving DecidableEq

/-- Output path written by the `text-replace` route:
`outputs/<job>/replaced_<original_filename>`. -/
def replacedPath (job : Job) : String :=
  "outputs/" ++ job.id ++ "/replaced_" ++ job.original_filename

/-- Output path written by the `delete-blocks` route. -/
def blocksRemovedPath (job : Job) : String :=
  "outputs/" ++ job.id ++ "/blocks_removed_" ++ job.original_filename

/-- Output path written by the `delete-pages` route. -/
def pagesRemovedPath (job : Job) : String :=
  "outputs/" ++ job.id ++ "/pages_removed_" ++ job.original_filename

/-- Job mutation performed at the end of the `text-replace` route
(jobs.py lines 486-489): it sets `output_pdf_path`, `status` and
`completed_at`, and leaves `input_path` untouched. -/
def textReplaceJobUpdate (job : Job) : Job :=
  { job with output_pdf_path := some (replacedPath job),
             status := "done", completed := true }

/-- Job mutation performed at the end of the `delete-blocks` route
(jobs.py lines 558-562): `input_path` is repointed to the new artifact. -/
def deleteBlocksJobUpdate (job : Job) : Job :=
  { job with input_path := blocksRemovedPath job,
             output_pdf_path := some (blocksRemovedPath job),
             status := "done", completed := true }

/-- Job mutation performed at the end of the `delete-pages` route
(jobs.py lines 628-633): `input_path` is repointed and `page_count`
updated. -/
def deletePagesJobUpdate (job : Job) (newCount : ℕ) : Job :=
  { job with input_path := pagesRemovedPath job,
             output_pdf_path := some (pagesRemovedPath job),
             page_count := newCount,
             status := "done", completed := true }

/-- The `retry` route (jobs.py lines 177-202): status `done` or `queued`
is rejected with HTTP 400; any other status is reset to `queued` with
progress 0 and the error message cleared. -/
def retry_job (job : Job) : Except ℕ Job :=
  if job.status = "done" ∨ job.status = "queued" then .error 400
  else .ok { job with status := "queued", progress := 0, error_message := none }

/-- Safety cap on pages sent to the classifier (tasks.py line 16). -/
def MAX_PAGES_FOR_AI : ℕ := 15

/-- Advisory text stored when the page cap is exceeded (tasks.py line 130). -/
def pageCapAdvisory (n : ℕ) : String :=
  "Uwaga: Dokument ma " ++ toString n ++ " stron. AI przetworzy tylko pierwsze "
    ++ toString MAX_PAGES_FOR_AI ++ "."

/-- Page-cap check in `process_document` (tasks.py lines 128-131): when the
page count exceeds the cap the job gets status `review` and the advisory is
stored in `error_message`; processing then continues. -/
def pageCapStep (job : Job) (pageCount : ℕ) : Job :=
  if MAX_PAGES_FOR_AI < pageCount then
    { job with status := "review", error_message := some (pageCapAdvisory pageCount) }
  else job

/-- The task-level exception handler (tasks.py lines 234-237 and 330-333):
any exception marks the job failed and stores the message verbatim. -/
def failJob (job : Job) (msg : String) : Job :=
  { job with status := "failed", error_message := some msg }

/-- Lookup in the decisions dict built by `render_document`
(tasks.py lines 271-275); a later entry for the same item id overwrites an
earlier one, as in the Python dict construction. -/
def lookupLast (d : List (String × String)) (k : String) : Option String :=
  d.foldl (fun acc kv => if kv.1 = k then some kv.2 else acc) none

/-- Effective action for a finding (tasks.py lines 286-288):
the user's decision if present, else the finding's suggested action. -/
def effectiveAction (decisions : List (String × String)) (f : FindingM) : String :=
  (lookupLast decisions f.id).getD f.suggested_action

/-- Conversion of a percentage bbox into an absolute page rectangle, as done
in `PDFAnonymizer.add_redaction` (pdf_processor.py lines 184-190). -/
def normToRect (W H : ℚ) (b : BBox) : Rect :=
  { x0 := b.x / 100 * W, y0 := b.y / 100 * H,
    x1 := b.x / 100 * W + b.w / 100 * W,
    y1 := b.y / 100 * H + b.h / 100 * H }

/-- A queued redaction as stored in `PDFAnonymizer.redactions`. -/
structure QueuedRedaction where
  page : ℤ
  rect : Rect
  fill : ℚ × ℚ × ℚ
deriving DecidableEq

/-- `PDFAnonymizer.add_redaction` (pdf_processor.py lines 165-201): the bbox
is mapped to an absolute rectangle; action `remove` overrides the fill to
white (1,1,1); any other action keeps the default black fill (0,0,0). -/
def add_redaction (W H : ℚ) (page_num : ℤ) (bbox : BBox) (action : String) :
    QueuedRedaction :=
  { page := page_num, rect := normToRect W H bbox,
    fill := if action = "remove" then (1, 1, 1) else (0, 0, 0) }

/-- Whether `render_document` queues a visual-cover redaction for a finding
(tasks.py line 290): effective action `remove` or `mask`. -/
def isCovered (decisions : List (String × String)) (f : FindingM) : Bool :=
  decide (effectiveAction decisions f = "remove" ∨ effectiveAction decisions f = "mask")

/-- The redactions queued by the `render_document` loop over findings
(tasks.py lines 283-295); the 1-indexed AI page is converted to 0-indexed. -/
def renderQueue (W H : ℚ) (findings : List FindingM)
    (decisions : List (String × String)) : List QueuedRedaction :=
  (findings.filter (isCovered decisions)).map
    (fun f => add_redaction W H (f.page - 1) f.bbox (effectiveAction decisions f))

/-- Number of redactions `render_document` actually queues and applies. -/
def redactionsQueuedCount (findings : List FindingM)
    (decisions : List (String × String)) : ℕ :=
  (findings.filter (isCovered decisions)).length

/-- The values of the decisions dict, as a list (one value per distinct key,
the last write winning, matching the Python dict). -/
def dictValues (d : List (String × String)) : List String :=
  ((d.map Prod.fst).dedup).filterMap (lookupLast d)

/-- The `redactions_applied` field of the audit record as computed by
`render_document` (tasks.py lines 316-318): it counts `remove`/`mask`
values in the decisions dict, not the queued redactions. -/
def auditRedactionsApplied (d : List (String × String)) : ℕ :=
  (dictValues d).countP (fun a => decide (a = "remove" ∨ a = "mask"))

/-- The audit record written by `render_document` (tasks.py lines 309-320),
without the timestamp. -/
structure AuditRecord where
  job_id : String
  mode : String
  decisions : List (String × String)
  findings_count : ℕ
  redactions_applied : ℕ
deriving DecidableEq

/-- The redaction queue and audit record produced by one `render_document`
run over the job's findings (tasks.py lines 283-320). -/
def render_document_model (W H : ℚ) (job : Job)
    (decisions : List (String × String)) : List QueuedRedaction × AuditRecord :=
  (renderQueue W H job.findings decisions,
   { job_id := job.id, mode := job.mode, decisions := decisions,
     findings_count := job.findings.length,
     redactions_applied := auditRedactionsApplied decisions })

/-- A neutral job record used for concrete instantiations. -/
def baseJob : Job :=
  { id := "1", original_filename := "a.pdf", mode := "layout",
    status := "review", progress := 100, input_path := "inputs/1/a.pdf",
    output_pdf_path := none, page_count := 3, error_message := none,
    completed := false, sections := [], findings := [], confidence := 0 }

/-- The finding of the spec's end-to-end scenario. -/
def f1 : FindingM :=
  { id := "f1", page := 1, bbox := { x := 10, y := 10, w := 20, h := 5 },
    suggested_action := "remove", confidence := 1 }

/-- A job holding exactly the scenario finding. -/
def jobC3 : Job := { baseJob with findings := [f1] }

/-- C1 counterexample: the `text-replace` route does not repoint
`input_path` to the artifact it wrote; the pointer stays at the old
artifact, so the claim fails for this mutating operation. -/
theorem C1_stale_pointer_counterexample :
    (textReplaceJobUpdate baseJob).input_path = baseJob.input_path ∧
    (textReplaceJobUpdate baseJob).input_path ≠ replacedPath baseJob := by
  exact ⟨rfl, by decide⟩

/-- C1 (amended): `delete-blocks` and `delete-pages` repoint the job's
`input_path` to the newly written artifact, but `text-replace` only sets
`output_pdf_path` and leaves `input_path` at the pre-replace artifact, so a
subsequent mutating operation after a text-replace reads the stale path. -/
theorem C1_artifact_pointer (job : Job) (n : ℕ) :
    (deleteBlocksJobUpdate job).input_path = blocksRemovedPath job ∧
    (deletePagesJobUpdate job n).input_path = pagesRemovedPath job ∧
    (textReplaceJobUpdate job).input_path = job.input_path ∧
    (textReplaceJobUpdate job).output_pdf_path = some (replacedPath job) :=
  ⟨rfl, rfl, rfl, rfl⟩

/-- C3: on the spec's end-to-end scenario (one finding suggesting `remove`,
empty decisions map) the render loop queues and applies 1 redaction, but the
audit record reports `redactions_applied = 0`, because the code counts
`remove`/`mask` values of the decisions dict instead of the redactions it
applied. -/
theorem C3_redactions_applied_miscount :
    (render_document_model 100 100 jobC3 []).1.length = 1 ∧
    (render_document_model 100 100 jobC3 []).2.redactions_applied = 0 ∧
    (render_document_model 100 100 jobC3 []).1.length ≠
      (render_document_model 100 100 jobC3 []).2.redactions_applied := by
  refine ⟨by decide, by decide, by decide⟩

/-- C4 counterexample: an effective action `remove` is not queued with the
same visual cover as `mask` — `add_redaction` overrides the fill to white
(1,1,1) for `remove` while `mask` keeps black (0,0,0). -/
theorem C4_remove_fill_counterexample :
    (add_redaction 100 100 0 f1.bbox "remove").fill ≠
      (add_redaction 100 100 0 f1.bbox "mask").fill := by decide

/-- C4 (amended): for every finding the effective action is
`decisions[finding.id]` if present, else the suggested action; when it is
`mask` or `remove` a redaction for the finding's converted rectangle is
queued, with `mask` using black fill (0,0,0) and `remove` using white fill
(1,1,1) — a visual cover in both cases, but not the same one. -/
theorem C4_effective_action_and_fill (W H : ℚ) (findings : List FindingM)
    (decisions : List (String × String)) (f : FindingM) (p : ℤ) (b : BBox) :
    effectiveAction decisions f = (lookupLast decisions f.id).getD f.suggested_action ∧
    (f ∈ findings →
      (effectiveAction decisions f = "remove" ∨ effectiveAction decisions f = "mask") →
      add_redaction W H (f.page - 1) f.bbox (effectiveAction decisions f) ∈
        renderQueue W H findings decisions) ∧
    (add_redaction W H p b "mask").fill = (0, 0, 0) ∧
    (add_redaction W H p b "remove").fill = (1, 1, 1) ∧
    (add_redaction W H p b "mask").rect = normToRect W H b ∧
    (add_redaction W H p b "remove").rect = normToRect W H b := by
  refine ⟨rfl, ?_, rfl, rfl, rfl, rfl⟩
  intro hf ha
  exact List.mem_map_of_mem _
    (List.mem_filter.mpr ⟨hf, by simpa [isCovered] using ha⟩)

/-- C4 witness: the scenario finding with empty decisions resolves to
`remove` and its redaction is queued. -/
theorem C4_effective_action_and_fill_witness :
    add_redaction 100 100 (f1.page - 1) f1.bbox (effectiveAction [] f1) ∈
      renderQueue 100 100 [f1] [] ∧
    (add_redaction 100 100 0 f1.bbox "mask").fill = (0, 0, 0) :=
  ⟨(C4_effective_action_and_fill 100 100 [f1] [] f1 0 f1.bbox).2.1
      (by decide) (by decide),
   (C4_effective_action_and_fill 100 100 [f1] [] f1 0 f1.bbox).2.2.1⟩

/-- C9 counterexample: a 16-page document triggers the page-cap advisory,
which is stored in `error_message` while the job's status is `review`, not
`failed` — the claimed invariant does not hold. -/
theorem C9_advisory_counterexample :
    (pageCapStep baseJob 16).error_message ≠ none ∧
    (pageCapStep baseJob 16).status ≠ "failed" := by decide

/-- C9 (amended): `error_message` is set in two situations — by the failure
handler together with status `failed`, and by the page-cap advisory together
with status `review` (non-fatal, the job continues); an accepted retry
clears it. -/
theorem C9_error_message_discipline (job : Job) (n : ℕ) (m : String) :
    (MAX_PAGES_FOR_AI < n →
      (pageCapStep job n).status = "review" ∧
      (pageCapStep job n).error_message = some (pageCapAdvisory n)) ∧
    (¬ MAX_PAGES_FOR_AI < n → pageCapStep job n = job) ∧
    ((failJob job m).status = "failed" ∧ (failJob job m).error_message = some m) ∧
    (∀ j, retry_job job = .ok j → j.error_message = none) := by
  refine ⟨?_, ?_, ⟨rfl, rfl⟩, ?_⟩
  · intro h; simp [pageCapStep, h]
  · intro h; simp [pageCapStep, h]
  · intro j hj
    by_cases h : job.status = "done" ∨ job.status = "queued"
    · simp [retry_job, h] at hj
    · simp [retry_job, h] at hj
      subst hj
      rfl

/-- C9 witness: concrete instantiations of the amended discipline. -/
theorem C9_error_message_discipline_witness :
    ((pageCapStep baseJob 16).status = "review" ∧
      (pageCapStep baseJob 16).error_message = some (pageCapAdvisory 16)) ∧
    pageCapStep baseJob 3 = baseJob ∧
    ((failJob baseJob "x").status = "failed" ∧
      (failJob baseJob "x").error_message = some "x") ∧
    ({ baseJob with status := "queued", progress := 0,
                    error_message := none } : Job).error_message = none :=
  ⟨(C9_error_message_discipline baseJob 16 "x").1 (by decide),
   (C9_error_message_discipline baseJob 3 "x").2.1 (by decide),
   (C9_error_message_discipline baseJob 3 "x").2.2.1,
   (C9_error_message_discipline baseJob 3 "x").2.2.2 _ rfl⟩

/-- C10: `retry` rejects exactly the jobs whose status is `done` or `queued`
with HTTP 400, and accepts any other status, resetting it to `queued` with
progress 0 and `error_message` cleared. -/
theorem C10_retry_accepts_non_terminal (job : Job) :
    ((job.status = "done" ∨ job.status = "queued") → retry_job job = .error 400) ∧
    (job.status ≠ "done" → job.status ≠ "queued" →
      retry_job job = .ok { job with status := "queued", progress := 0,
                                     error_message := none }) := by
  constructor
  · intro h; simp [retry_job, h]
  · intro h1 h2; simp [retry_job, h1, h2]

/-- C10 witness: a `done` job is rejected; an `analyzing` job (neither
failed nor stuck) is accepted and reset. -/
theorem C10_retry_accepts_non_terminal_witness :
    retry_job { baseJob with status := "done" } = .error 400 ∧
    retry_job { baseJob with status := "analyzing" } =
      .ok { baseJob with status := "queued", progress := 0,
                         error_message := none } :=
  ⟨(C10_retry_accepts_non_terminal { baseJob with status := "done" }).1
      (by decide),
   (C10_retry_accepts_non_terminal { baseJob with status := "analyzing" }).2
      (by decide) (by decide)⟩

/-- An entry of `PDFAnonymizer.redactions`: a queued visual redaction or a
queued page deletion (pdf_processor.py lines 195-210). -/
inductive RedRec where
  | redact (q : QueuedRedaction)
  | delPage (page : ℤ)
deriving DecidableEq

/-- Events of the flatten protocol: marking a region for removal
(`add_redact_annot`) and flattening a page (`apply_redactions`). -/
inductive REvent where
  | mark (page : ℤ)
  | flatten (page : ℤ)
deriving DecidableEq

/-- Event trace of `PDFAnonymizer.apply_redactions`
(pdf_processor.py lines 222-232): the loop marks each queued redaction and
immediately flattens its page, one flatten per queued item. -/
def applyRedactionsTrace (rs : List RedRec) : List REvent :=
  rs.flatMap (fun r =>
    match r with
    | .redact q => [.mark q.page, .flatten q.page]
    | .delPage _ => [])

/-- Recognizer for flatten events. -/
def isFlatten : REvent → Bool
  | .flatten _ => true
  | .mark _ => false

/-- Recognizer for queued visual redactions. -/
def isRedact : RedRec → Bool
  | .redact _ => true
  | .delPage _ => false

/-- Number of flatten invocations in a trace. -/
def flattenCount (tr : List REvent) : ℕ := tr.countP isFlatten

/-- Helper: true when no mark event occurs after a flatten event; the flag
records whether a flatten has been seen. -/
def marksAux : Bool → List REvent → Bool
  | _, [] => true
  | seen, .mark _ :: t => !seen && marksAux seen t
  | _, .flatten _ :: t => marksAux true t

/-- True when all mark events of a trace precede all flatten events. -/
def marksAllBeforeFlattens (tr : List REvent) : Bool := marksAux false tr

/-- Event trace of the `text-replace` route (jobs.py lines 442-476): redact
annotations are queued while scanning matches, then `apply_redactions` is
invoked once for every page of the document. -/
def textReplaceFlattenTrace (markPages : List ℤ) (pageCount : ℕ) : List REvent :=
  markPages.map .mark ++ (List.range pageCount).map (fun i => .flatten (i : ℤ))

/-- A concrete queued redaction used for counterexamples. -/
def qA : QueuedRedaction :=
  { page := 0, rect := normToRect 100 100 f1.bbox, fill := (0, 0, 0) }

/-- C2 counterexample: with two queued redactions,
`PDFAnonymizer.apply_redactions` invokes the flatten step twice — once per
queued item, with the second mark after the first flatten — not exactly
once per output artifact with all marks first. -/
theorem C2_flatten_per_item_counterexample :
    ¬ (flattenCount (applyRedactionsTrace [.redact qA, .redact qA]) = 1 ∧
       marksAllBeforeFlattens (applyRedactionsTrace [.redact qA, .redact qA]) = true) := by
  decide

/-- Helper: a block of mark events keeps the mark-before-flatten discipline. -/
theorem marksAux_marks (l : List ℤ) (r : List REvent) :
    marksAux false (l.map REvent.mark ++ r) = marksAux false r := by
  induction l with
  | nil => rfl
  | cons x t ih => simp [marksAux, ih]

/-- Helper: a trace of flatten events alone contains no late mark. -/
theorem marksAux_flattens (l : List ℕ) (b : Bool) :
    marksAux b (l.map (fun i : ℕ => REvent.flatten (i : ℤ))) = true := by
  induction l generalizing b with
  | nil => rfl
  | cons x t ih => simpa [marksAux] using ih true

/-- C2 (amended): `PDFAnonymizer.apply_redactions` invokes the
content-removing flatten step once per queued (non-delete) redaction, each
immediately after its mark; the `text-replace` route instead queues all
marks first and then invokes the flatten step once per page of the output
artifact — in neither case exactly once per output artifact in general. -/
theorem C2_flatten_protocol (rs : List RedRec) (markPages : List ℤ) (n : ℕ) :
    flattenCount (applyRedactionsTrace rs) = (rs.filter isRedact).length ∧
    flattenCount (textReplaceFlattenTrace markPages n) = n ∧
    marksAllBeforeFlattens (textReplaceFlattenTrace markPages n) = true := by
  refine ⟨?_, ?_, ?_⟩
  · induction rs with
    | nil => rfl
    | cons r t ih =>
      cases r with
      | redact q =>
        simp [applyRedactionsTrace, flattenCount, isFlatten, isRedact,
              List.countP_append] at ih ⊢
        omega
      | delPage p =>
        simpa [applyRedactionsTrace, flattenCount, isFlatten, isRedact,
               List.countP_append] using ih
  · rw [textReplaceFlattenTrace, flattenCount, List.countP_append]
    have h1 : List.countP isFlatten (markPages.map REvent.mark) = 0 := by
      induction markPages with
      | nil => rfl
      | cons x t ih => simp [List.countP_cons, isFlatten, ih]
    have h2 : ∀ l : List ℕ,
        List.countP isFlatten (l.map (fun i : ℕ => REvent.flatten (i : ℤ))) = l.length := by
      intro l
      induction l with
      | nil => rfl
      | cons x t ih => simp [List.countP_cons, isFlatten, ih]
    rw [h1, h2, List.length_range]
    omega
  · rw [marksAllBeforeFlattens, textReplaceFlattenTrace, marksAux_marks]
    exact marksAux_flattens _ _

/-- Outcome of one classifier call, from the caller's point of view:
the transport responds (with a well-formed or malformed body), the
`asyncio.wait_for` deadline fires, or the transport is unreachable and the
client raises with some message. -/
inductive StageOutcome where
  | responds (wellFormed : Bool)
  | timesOut
  | unreachable (msg : String)
deriving DecidableEq

/-- Message captured when `asyncio.wait_for` raises: `str(asyncio.TimeoutError())`
is the empty string, which `process_document` stores verbatim. -/
def timeoutText : String := ""

/-- `VertexAIService.detect_sections` as observed by `process_document`
(vertex_ai.py lines 111-126 wrapped by tasks.py lines 173-178): a malformed
body is caught inside the service and degrades to an empty sections list;
`generate_content` raising (unreachable transport) and the task-level
timeout both escape as errors. -/
def callSections : StageOutcome → List SectionM → Except String (List SectionM)
  | .responds true, parsed => .ok parsed
  | .responds false, _ => .ok []
  | .timesOut, _ => .error timeoutText
  | .unreachable m, _ => .error m

/-- `VertexAIService.detect_sensitive_data` as observed by the task
(vertex_ai.py lines 177-189): same degradation discipline as sections. -/
def callFindings : StageOutcome → List FindingM → Except String (List FindingM)
  | .responds true, parsed => .ok parsed
  | .responds false, _ => .ok []
  | .timesOut, _ => .error timeoutText
  | .unreachable m, _ => .error m

/-- `VertexAIService.extract_digital_twin` as observed by the task
(vertex_ai.py lines 243-295): a malformed body degrades to a twin with
confidence 0.0; a parsed body also leaves the model-default confidence 0.0
(the parser populates only the sub-objects), so the job confidence recorded
from this stage is 0 in both non-error cases. -/
def callTwin : StageOutcome → Except String ℚ
  | .responds _ => .ok 0
  | .timesOut => .error timeoutText
  | .unreachable m => .error m

/-- Mean finding confidence (tasks.py lines 219-225). -/
def avgConfidence (fs : List FindingM) : ℚ :=
  (fs.map (·.confidence)).sum / fs.length

/-- Confidence blending after analysis (tasks.py lines 218-225): when the
findings list is non-empty, the job confidence becomes the maximum of its
current value and the mean finding confidence. -/
def blendConfidence (job : Job) : Job :=
  if job.findings = [] then job
  else { job with confidence := max job.confidence (avgConfidence job.findings) }

/-- Final bookkeeping of a successful analysis run
(tasks.py lines 227-230): blend confidence, then status `review`,
progress 100. -/
def finishAnalyze (j : Job) : Job :=
  { blendConfidence j with status := "review", progress := 100 }

/-- The `analyzing` phase of `process_document` (tasks.py lines 154-238):
three sequential classifier calls, the third only in mode `unify`; any
error from a call reaches the task-level handler, which marks the job
failed; otherwise the stage results are recorded and the job continues. -/
def runAnalysis (job : Job) (o1 o2 o3 : StageOutcome)
    (secs : List SectionM) (fnds : List FindingM) : Job :=
  match callSections o1 secs with
  | .error e => failJob job e
  | .ok s =>
    let j1 := { job with sections := s, progress := 55 }
    match callFindings o2 fnds with
    | .error e => failJob j1 e
    | .ok fs =>
      let j2 := { j1 with findings := fs, progress := 70 }
      if j2.mode = "unify" then
        match callTwin o3 with
        | .error e => failJob j2 e
        | .ok c => finishAnalyze { j2 with confidence := c, progress := 85 }
      else finishAnalyze j2

/-- C5 counterexample: when the sections call times out (the transport is
reachable, later calls would respond), the job does not degrade and
continue — it transitions to `failed`. -/
theorem C5_timeout_counterexample :
    (runAnalysis baseJob .timesOut (.responds true) (.responds true) [] []).status
      = "failed" ∧
    (runAnalysis baseJob .timesOut (.responds true) (.responds true) [] []).status
      ≠ "review" := by decide

/-- C5 (amended): a malformed/unparseable classifier response degrades that
stage to an empty result and the job continues to `review`; but an
individual call that times out, like an unreachable transport, raises
through the task-level handler and transitions the job to `failed`. -/
theorem C5_degradation_policy (job : Job) (secs : List SectionM)
    (fnds : List FindingM) (o2 o3 : StageOutcome) (m : String) (wf2 wf3 : Bool) :
    (runAnalysis job (.responds false) (.responds wf2) (.responds wf3) secs fnds).status
      = "review" ∧
    (runAnalysis job (.responds false) (.responds wf2) (.responds wf3) secs fnds).sections
      = [] ∧
    runAnalysis job .timesOut o2 o3 secs fnds = failJob job timeoutText ∧
    runAnalysis job (.unreachable m) o2 o3 secs fnds = failJob job m ∧
    (runAnalysis job (.responds true) .timesOut o3 secs fnds).status = "failed" := by
  refine ⟨?_, ?_, rfl, rfl, ?_⟩
  · cases wf2 <;> cases wf3 <;>
      by_cases h : job.mode = "unify" <;>
      simp [runAnalysis, callSections, callFindings, callTwin, finishAnalyze, h,
            failJob]
  · cases wf2 <;> cases wf3 <;>
      by_cases h : job.mode = "unify" <;>
      simp [runAnalysis, callSections, callFindings, callTwin, finishAnalyze,
            blendConfidence, h, failJob] <;>
      split <;> rfl
  · by_cases h : job.mode = "unify" <;>
      simp [runAnalysis, callSections, callFindings, callTwin, h, failJob]

/-- A block submitted to the `delete-blocks` route: optional page index and
optional bbox, matching the unvalidated JSON dict access in the code. -/
structure BlockM where
  page : Option ℤ
  bbox : Option BBox
deriving DecidableEq

/-- The blocks `delete_blocks` actually redacts (jobs.py lines 525-545):
a block is silently skipped when its page is missing or `page >= len(doc)`
or its bbox is missing; all others are queued. -/
def appliedBlocks (docLen : ℕ) (blocks : List BlockM) : List (ℤ × BBox) :=
  blocks.filterMap (fun b =>
    match b.page, b.bbox with
    | some p, some bb => if (docLen : ℤ) ≤ p then none else some (p, bb)
    | _, _ => none)

/-- The `delete-blocks` route result (jobs.py lines 501-572): the updated
job, the queued redactions, and the response, whose `deleted_count` is the
number of submitted blocks — skipped ones included. -/
def delete_blocks_result (job : Job) (docLen : ℕ) (blocks : List BlockM) :
    Job × List (ℤ × BBox) × String × ℕ :=
  (deleteBlocksJobUpdate job, appliedBlocks docLen blocks, "ok", blocks.length)

/-- A concrete bbox used in counterexamples. -/
def bb0 : BBox := { x := 0, y := 0, w := 100, h := 10 }

/-- C8 counterexample: on a 1-page document, a block with page index 5 is
silently skipped while the in-range block is applied, and the response is
`ok` with `deleted_count = 2` — no rejection, no invalid indices reported. -/
theorem C8_silent_skip_counterexample :
    (delete_blocks_result baseJob 1
        [{ page := some 5, bbox := some bb0 }, { page := some 0, bbox := some bb0 }]).2
      = ([((0 : ℤ), bb0)], "ok", 2) := by decide

/-- C8 (amended): a block whose page index is out of range (or whose page or
bbox is missing) is silently skipped while the remaining blocks are applied;
the response always reports `ok` with `deleted_count` equal to the number of
submitted blocks, with no invalid indices reported. -/
theorem C8_out_of_range_skipped (job : Job) (docLen : ℕ) (blocks : List BlockM) :
    (delete_blocks_result job docLen blocks).2.2 = ("ok", blocks.length) ∧
    (∀ p bb, (docLen : ℤ) ≤ p →
      (p, bb) ∉ (delete_blocks_result job docLen blocks).2.1) ∧
    (∀ b ∈ blocks, ∀ p bb, b.page = some p → b.bbox = some bb →
      p < (docLen : ℤ) → (p, bb) ∈ (delete_blocks_result job docLen blocks).2.1) := by
  refine ⟨rfl, ?_, ?_⟩
  · intro p bb hge hm
    simp only [delete_blocks_result, appliedBlocks, List.mem_filterMap] at hm
    obtain ⟨a, _, hsome⟩ := hm
    cases hp : a.page with
    | none => simp [hp] at hsome
    | some q =>
      cases hb : a.bbox with
      | none => simp [hp, hb] at hsome
      | some b2 =>
        simp only [hp, hb] at hsome
        split at hsome
        · exact absurd hsome (by simp)
        · rename_i hlt
          obtain ⟨hq, _⟩ := Prod.mk.injEq .. ▸ Option.some.injEq .. ▸ hsome
          exact hlt (hq ▸ hge)
  · intro b hb p bb hp hbb hlt
    simp only [delete_blocks_result, appliedBlocks, List.mem_filterMap]
    exact ⟨b, hb, by simp [hp, hbb, not_le.mpr hlt]⟩

/-- C8 witness: concrete instantiation — the out-of-range block is not
applied, the in-range one is, and the response still counts both. -/
theorem C8_out_of_range_skipped_witness :
    ((5 : ℤ), bb0) ∉ (delete_blocks_result baseJob 1
        [{ page := some 5, bbox := some bb0 }, { page := some 0, bbox := some bb0 }]).2.1 ∧
    ((0 : ℤ), bb0) ∈ (delete_blocks_result baseJob 1
        [{ page := some 5, bbox := some bb0 }, { page := some 0, bbox := some bb0 }]).2.1 :=
  ⟨(C8_out_of_range_skipped baseJob 1 _).2.1 5 bb0 (by decide),
   (C8_out_of_range_skipped baseJob 1 _).2.2
      { page := some 0, bbox := some bb0 } (by decide) 0 bb0 rfl rfl (by decide)⟩

/-- An item of a PDF page's content: a text span (in the content stream,
hence visible to `extract_text`) or a vector drawing. -/
inductive PItem where
  | tspan (text : String) (rect : Rect)
  | draw (rect : Rect)
deriving DecidableEq

/-- A page together with its queued redaction annotations. -/
structure PageSt where
  items : List PItem
  redacts : List Rect
deriving DecidableEq

/-- Rectangles of the spans `page.search_for(find)` locates, modelled at
span granularity: a span matches when its text equals the needle. -/
def matchRects (p : PageSt) (find : String) : List Rect :=
  p.items.filterMap (fun it =>
    match it with
    | .tspan t r => if t = find then some r else none
    | .draw _ => none)

/-- The left shift computed by `text_replace` (jobs.py lines 427-432):
estimated replacement width minus original width, clamped at 0. -/
def shiftAmount (find replace : String) (r : Rect) : ℚ :=
  max 0 ((replace.length : ℚ) * ((r.x1 - r.x0) / ((max 1 find.length : ℕ) : ℚ))
    - (r.x1 - r.x0))

/-- The cover rectangle of one match (jobs.py lines 434-440): the match
rectangle expanded by the left shift and a fixed margin. -/
def coverRect (find replace : String) (r : Rect) : Rect :=
  { x0 := r.x0 - shiftAmount find replace r - 2, y0 := r.y0 - 1,
    x1 := r.x1 + 2, y1 := r.y1 + 1 }

/-- Extent of the span inserted by `insert_text` (jobs.py lines 450-460):
placed at the shifted x position with the estimated replacement width. -/
def insertedRect (find replace : String) (r : Rect) : Rect :=
  { x0 := r.x0 - shiftAmount find replace r, y0 := r.y0,
    x1 := r.x0 - shiftAmount find replace r
      + (replace.length : ℚ) * ((r.x1 - r.x0) / ((max 1 find.length : ℕ) : ℚ)),
    y1 := r.y1 }

/-- One replacement instruction applied to a page (jobs.py lines 410-471):
for each match, an empty replacement queues a redaction annotation over the
cover rectangle (true deletion, finalized later); a non-empty replacement
draws a white cover rectangle and inserts the replacement text — the
matched span itself stays in the content stream. -/
def applyInstr (fr : String × String) (p : PageSt) : PageSt :=
  if fr.2 = "" then
    { p with redacts := p.redacts ++ (matchRects p fr.1).map (coverRect fr.1 fr.2) }
  else
    { p with items := p.items ++ (matchRects p fr.1).flatMap (fun r =>
        [.draw (coverRect fr.1 fr.2 r), .tspan fr.2 (insertedRect fr.1 fr.2 r)]) }

/-- Open-rectangle overlap test. -/
def rectIntersects (a b : Rect) : Bool :=
  decide (a.x0 < b.x1) && decide (b.x0 < a.x1) &&
  decide (a.y0 < b.y1) && decide (b.y0 < a.y1)

/-- `page.apply_redactions()` as documented in the code (jobs.py lines
442-445, 473-476): every text span overlapping a queued redaction
rectangle is removed from the content stream; drawings and the remaining
spans stay. -/
def applyRedactionsPage (p : PageSt) : PageSt :=
  { items := p.items.filter (fun it =>
      match it with
      | .tspan _ r => !(p.redacts.any (fun q => rectIntersects q r))
      | .draw _ => true),
    redacts := [] }

/-- The `text-replace` core on one page (jobs.py lines 406-476): all
instructions are applied (marking matches), then redactions are applied
once at the end. -/
def text_replace_page (p : PageSt) (repls : List (String × String)) : PageSt :=
  applyRedactionsPage (repls.foldl (fun acc fr => applyInstr fr acc) p)

/-- `PDFProcessor.extract_text` (pdf_processor.py lines 95-111): the text
of the spans present in the content stream. -/
def extract_text (p : PageSt) : String :=
  String.intercalate "\n" (p.items.filterMap (fun it =>
    match it with
    | .tspan t _ => some t
    | .draw _ => none))

/-- Character-list matching: does the pattern start the text? -/
def startsWithChars : List Char → List Char → Bool
  | [], _ => true
  | _ :: _, [] => false
  | a :: pt, b :: l => a == b && startsWithChars pt l

/-- Character-list matching: does the pattern occur anywhere in the text? -/
def containsChars (pat : List Char) : List Char → Bool
  | [] => startsWithChars pat []
  | c :: t => startsWithChars pat (c :: t) || containsChars pat t

/-- Substring occurrence on strings. -/
def strContains (s pat : String) : Bool := containsChars pat.data s.data

/-- A span is well-formed when its rectangle is non-degenerate in the weak
sense (x0 ≤ x1 and y0 ≤ y1); drawings are unconstrained. -/
def wfSpan : PItem → Prop
  | .tspan _ r => r.x0 ≤ r.x1 ∧ r.y0 ≤ r.y1
  | .draw _ => True

instance : DecidablePred wfSpan := fun it => by
  cases it with
  | tspan t r => exact inferInstanceAs (Decidable (_ ∧ _))
  | draw r => exact inferInstanceAs (Decidable True)

/-- The page of the counterexample: a single span holding the target text. -/
def pageC6 : PageSt :=
  { items := [.tspan "SECRET" { x0 := 10, y0 := 10, x1 := 50, y1 := 20 }],
    redacts := [] }

/-- C6 counterexample: replacing `SECRET` by the non-empty `XXX` leaves the
original text extractable — the output's extracted text still contains
`SECRET` (the white rectangle only covers it visually) alongside `XXX`. -/
theorem C6_nonempty_replace_counterexample :
    strContains (extract_text (text_replace_page pageC6 [("SECRET", "XXX")])) "SECRET"
      = true ∧
    strContains (extract_text (text_replace_page pageC6 [("SECRET", "XXX")])) "XXX"
      = true := by decide

/-- Helper: the cover rectangle always overlaps the rectangle it was
computed from, provided that rectangle is well-formed. -/
theorem rectIntersects_coverRect (find replace : String) (r : Rect)
    (h1 : r.x0 ≤ r.x1) (h2 : r.y0 ≤ r.y1) :
    rectIntersects (coverRect find replace r) r = true := by
  have hs : 0 ≤ shiftAmount find replace r := le_max_left 0 _
  simp only [rectIntersects, coverRect, Bool.and_eq_true, decide_eq_true_eq]
  refine ⟨⟨⟨?_, ?_⟩, ?_⟩, ?_⟩ <;> dsimp only <;> linarith

/-- Helper: with no queued redactions, applying redactions keeps every item. -/
theorem applyRedactionsPage_no_redacts (p : PageSt) (h : p.redacts = []) :
    (applyRedactionsPage p).items = p.items := by
  apply List.filter_eq_self.mpr
  intro a _
  cases a <;> simp [h]

/-- C6 (amended): a text-replace instruction with `replace = ""` truly
removes every matched span from the content stream, so the output's
extracted text no longer holds `find` there; with a non-empty `replace` the
inserted span makes extracted text contain `replace`, but every original
span — including the matches — remains in the content stream, so `find` is
still extractable (it is only covered visually). -/
theorem C6_text_replace_extraction (p : PageSt) (find replace : String)
    (hred : p.redacts = [])
    (hwf : ∀ it ∈ p.items, wfSpan it) :
    (replace = "" →
      ∀ r, PItem.tspan find r ∉ (text_replace_page p [(find, replace)]).items) ∧
    (replace ≠ "" →
      (∀ it ∈ p.items, it ∈ (text_replace_page p [(find, replace)]).items) ∧
      (matchRects p find ≠ [] →
        ∃ r, PItem.tspan replace r ∈ (text_replace_page p [(find, replace)]).items)) := by
  constructor
  · intro he r hmem
    subst he
    have hmm : (text_replace_page p [(find, "")]).items =
        (applyRedactionsPage { p with
          redacts := p.redacts ++ (matchRects p find).map (coverRect find "") }).items := by
      simp [text_replace_page, applyInstr]
    rw [hmm] at hmem
    simp only [applyRedactionsPage, List.mem_filter] at hmem
    obtain ⟨hitem, hkeep⟩ := hmem
    have hmatch : r ∈ matchRects p find := by
      simp only [matchRects, List.mem_filterMap]
      exact ⟨.tspan find r, hitem, by simp⟩
    have hcover : coverRect find "" r ∈
        p.redacts ++ (matchRects p find).map (coverRect find "") :=
      List.mem_append_right _ (List.mem_map_of_mem _ hmatch)
    have hwfr := hwf _ hitem
    simp only [wfSpan] at hwfr
    have hint := rectIntersects_coverRect find "" r hwfr.1 hwfr.2
    simp only [Bool.not_eq_true', List.any_eq_false] at hkeep
    exact absurd hint (hkeep _ hcover)
  · intro hne
    have hstep : text_replace_page p [(find, replace)] =
        applyRedactionsPage (applyInstr (find, replace) p) := rfl
    have hinstr : applyInstr (find, replace) p =
        { p with items := p.items ++ (matchRects p find).flatMap (fun r =>
            [.draw (coverRect find replace r),
             .tspan replace (insertedRect find replace r)]) } := by
      rw [applyInstr]
      simp [hne]
    have hredacts : (applyInstr (find, replace) p).redacts = [] := by
      rw [hinstr]
      exact hred
    have hitems := applyRedactionsPage_no_redacts _ hredacts
    constructor
    · intro it hit
      rw [hstep, hitems, hinstr]
      exact List.mem_append_left _ hit
    · intro hm
      obtain ⟨r, hr⟩ := List.exists_mem_of_ne_nil _ hm
      refine ⟨insertedRect find replace r, ?_⟩
      rw [hstep, hitems, hinstr]
      refine List.mem_append_right _ (List.mem_flatMap.mpr ⟨r, hr, by simp⟩)

/-- C6 witness: on the concrete page, the empty replacement removes the
`SECRET` span entirely, and the non-empty replacement inserts an `XXX`
span. -/
theorem C6_text_replace_extraction_witness :
    (∀ r, PItem.tspan "SECRET" r ∉ (text_replace_page pageC6 [("SECRET", "")]).items) ∧
    (∃ r, PItem.tspan "XXX" r ∈ (text_replace_page pageC6 [("SECRET", "XXX")]).items) :=
  ⟨(C6_text_replace_extraction pageC6 "SECRET" "" rfl (by decide)).1 rfl,
   ((C6_text_replace_extraction pageC6 "SECRET" "XXX" rfl (by decide)).2
      (by decide)).2 (by decide)⟩

/-- Specification-side characterization of index-set deletion: the elements
of a list whose position (counting from `i`) is not listed in `ds`, in
their original order. -/
def keepAux {α : Type} : List α → ℕ → List ℕ → List α
  | [], _, _ => []
  | a :: t, i, ds => if i ∈ ds then keepAux t (i + 1) ds else a :: keepAux t (i + 1) ds

/-- Helper: indices all below the running counter never fire, so everything
is kept. -/
theorem keepAux_all_lt {α : Type} (l : List α) (base : ℕ) (ds : List ℕ)
    (h : ∀ x ∈ ds, x < base) : keepAux l base ds = l := by
  induction l generalizing base with
  | nil => rfl
  | cons a t ih =>
    have hb : base ∉ ds := fun hmem => absurd (h base hmem) (lt_irrefl base)
    simp [keepAux, hb, ih (base + 1) (fun x hx => Nat.lt_succ_of_lt (h x hx))]

/-- Helper: keeping elements is order-insensitive to erasing the largest
listed index first — erasing index `d` (relative to `base`) and then
keeping by `t` equals keeping by `d :: t`, when every index of `t` is
below `d`. -/
theorem keepAux_eraseIdx {α : Type} (l : List α) (base d : ℕ) (t : List ℕ)
    (ht : ∀ x ∈ t, x < d) (hd : d - base < l.length) (hbd : base ≤ d) :
    keepAux (l.eraseIdx (d - base)) base t = keepAux l base (d :: t) := by
  induction l generalizing base with
  | nil => simp at hd
  | cons a rest ih =>
    rcases Nat.eq_or_lt_of_le hbd with heq | hlt
    · have h0 : d - base = 0 := by omega
      rw [h0]
      have hkeep1 : keepAux rest base t = rest :=
        keepAux_all_lt rest base t (fun x hx => by have := ht x hx; omega)
      have hmem : base ∈ d :: t := by
        rw [heq]; exact List.mem_cons_self d t
      have hkeep2 : keepAux rest (base + 1) (d :: t) = rest := by
        refine keepAux_all_lt rest (base + 1) (d :: t) ?_
        intro x hx
        rcases List.mem_cons.mp hx with hx | hx
        · omega
        · have := ht x hx; omega
      show keepAux rest base t = keepAux (a :: rest) base (d :: t)
      rw [hkeep1, keepAux, if_pos hmem, hkeep2]
    · have hk : d - base = (d - (base + 1)) + 1 := by omega
      rw [hk, List.eraseIdx_cons_succ]
      simp only [List.length_cons] at hd
      have ihh := ih (base + 1) (by omega) (by omega)
      by_cases hb : base ∈ t
      · rw [keepAux, if_pos hb, keepAux, if_pos (List.mem_cons_of_mem _ hb), ihh]
      · have hb2 : base ∉ d :: t := by
          intro hx
          rcases List.mem_cons.mp hx with hx | hx
          · omega
          · exact hb hx
        rw [keepAux, if_neg hb, keepAux, if_neg hb2, ihh]

/-- Helper: deleting strictly descending in-range indices left to right
(largest first) keeps exactly the elements at unlisted positions, in
order — the loop of `delete_pages`. -/
theorem foldl_eraseIdx_keepAux {α : Type} (ds : List ℕ) (l : List α)
    (hs : ds.Pairwise (· > ·)) (hlt : ∀ d ∈ ds, d < l.length) :
    List.foldl List.eraseIdx l ds = keepAux l 0 ds := by
  induction ds generalizing l with
  | nil =>
    simpa using (keepAux_all_lt l 0 [] (by simp)).symm
  | cons d t ih =>
    have hpair := List.pairwise_cons.mp hs
    have hd : d < l.length := hlt d (List.mem_cons_self d t)
    have hlen : (l.eraseIdx d).length = l.length - 1 := by
      rw [List.length_eraseIdx]; simp [hd]
    rw [List.foldl_cons, ih (l.eraseIdx d) hpair.2 ?valid]
    case valid =>
      intro x hx
      have := hpair.1 x hx
      omega
    have := keepAux_eraseIdx l 0 d t (fun x hx => hpair.1 x hx)
      (by simpa using hd) (Nat.zero_le d)
    simpa using this

/-- Helper: the page count after the deletion loop. -/
theorem length_foldl_eraseIdx {α : Type} (ds : List ℕ) (l : List α)
    (hs : ds.Pairwise (· > ·)) (hlt : ∀ d ∈ ds, d < l.length) :
    (List.foldl List.eraseIdx l ds).length = l.length - ds.length := by
  induction ds generalizing l with
  | nil => simp
  | cons d t ih =>
    have hpair := List.pairwise_cons.mp hs
    have hd : d < l.length := hlt d (List.mem_cons_self d t)
    have hlen : (l.eraseIdx d).length = l.length - 1 := by
      rw [List.length_eraseIdx]; simp [hd]
    have ihh := ih (l.eraseIdx d) hpair.2
      (fun x hx => by have := hpair.1 x hx; omega)
    rw [List.foldl_cons, ihh, hlen, List.length_cons]
    omega

/-- Helper: the deletion loop yields a sublist — kept pages preserve their
original relative order. -/
theorem foldl_eraseIdx_sublist {α : Type} (ds : List ℕ) (l : List α) :
    List.Sublist (List.foldl List.eraseIdx l ds) l := by
  induction ds generalizing l with
  | nil => exact List.Sublist.refl l
  | cons d t ih =>
    exact (ih (l.eraseIdx d)).trans (List.eraseIdx_sublist l d)

/-- The indices `delete_pages` rejects (jobs.py line 607):
`p < 0 or p >= original_count`. -/
def pagesInvalid (pages : List ℤ) (n : ℕ) : List ℤ :=
  pages.filter (fun p => decide (p < 0 ∨ (n : ℤ) ≤ p))

/-- The deletion order of `delete_pages` (jobs.py line 615):
`sorted(set(pages), reverse=True)`, as natural-number indices. -/
def pagesToDelete (pages : List ℤ) : List ℕ :=
  (List.insertionSort (fun a b : ℤ => a ≥ b) pages.dedup).map Int.toNat

/-- The response body of a successful `delete-pages` call
(jobs.py lines 650-655). -/
structure DeleteReport where
  deleted_pages : List ℤ
  original_page_count : ℕ
  new_page_count : ℕ
deriving DecidableEq

/-- The `delete-pages` route (jobs.py lines 575-655) on a document modelled
as its list of pages: empty request and invalid indices are rejected with
HTTP 400 (invalid indices reported, nothing mutated); otherwise the pages
are deleted highest index first, the job is repointed to the new artifact
with the new page count, and the report lists the requested pages sorted
ascending. -/
def delete_pages {α : Type} (job : Job) (doc : List α) (pages : List ℤ) :
    Job × List α × Except (ℕ × List ℤ) DeleteReport :=
  if pages = [] then (job, doc, .error (400, []))
  else if pagesInvalid pages doc.length = [] then
    (deletePagesJobUpdate job
        (List.foldl List.eraseIdx doc (pagesToDelete pages)).length,
     List.foldl List.eraseIdx doc (pagesToDelete pages),
     .ok { deleted_pages := List.insertionSort (fun a b : ℤ => a ≤ b) pages,
           original_page_count := doc.length,
           new_page_count :=
             (List.foldl List.eraseIdx doc (pagesToDelete pages)).length })
  else (job, doc, .error (400, pagesInvalid pages doc.length))

/-- Helper: the descending deletion order is strictly descending and ranges
over exactly the requested page indices. -/
theorem pagesToDelete_spec (pages : List ℤ) (n : ℕ)
    (hvalid : ∀ p ∈ pages, 0 ≤ p ∧ p < (n : ℤ)) :
    (pagesToDelete pages).Pairwise (· > ·) ∧
    (∀ d ∈ pagesToDelete pages, d < n) ∧
    (∀ i : ℕ, i ∈ pagesToDelete pages ↔ (i : ℤ) ∈ pages) ∧
    (pagesToDelete pages).length = pages.dedup.length := by
  have hperm : List.Perm
      (List.insertionSort (fun a b : ℤ => a ≥ b) pages.dedup) pages.dedup :=
    List.perm_insertionSort _ _
  have hmem : ∀ x, x ∈ List.insertionSort (fun a b : ℤ => a ≥ b) pages.dedup ↔
      x ∈ pages := by
    intro x
    rw [hperm.mem_iff, List.mem_dedup]
  have hnodup : (List.insertionSort (fun a b : ℤ => a ≥ b) pages.dedup).Nodup :=
    hperm.nodup_iff.mpr (List.nodup_dedup pages)
  have hsorted : List.Sorted (fun a b : ℤ => a ≥ b)
      (List.insertionSort (fun a b : ℤ => a ≥ b) pages.dedup) :=
    List.sorted_insertionSort _ _
  have hgt : (List.insertionSort (fun a b : ℤ => a ≥ b) pages.dedup).Pairwise
      (· > ·) :=
    (hsorted.and hnodup).imp (fun hab => lt_of_le_of_ne hab.1 (Ne.symm hab.2))
  refine ⟨?_, ?_, ?_, ?_⟩
  · rw [pagesToDelete, List.pairwise_map]
    refine List.Pairwise.imp_of_mem ?_ hgt
    intro a b ha hb hab
    have ha2 := (hvalid a ((hmem a).mp ha)).1
    have hb2 := (hvalid b ((hmem b).mp hb)).1
    omega
  · intro d hd
    rw [pagesToDelete, List.mem_map] at hd
    obtain ⟨x, hx, hxd⟩ := hd
    have := hvalid x ((hmem x).mp hx)
    omega
  · intro i
    rw [pagesToDelete, List.mem_map]
    constructor
    · rintro ⟨x, hx, hxd⟩
      have := hvalid x ((hmem x).mp hx)
      have hxi : x = (i : ℤ) := by omega
      rw [← hxi]
      exact (hmem x).mp hx
    · intro hi
      refine ⟨(i : ℤ), (hmem _).mpr hi, ?_⟩
      omega
  · rw [pagesToDelete, List.length_map]
    exact hperm.length_eq

/-- C7: `delete_pages` rejects the whole call — reporting exactly the
offending indices and mutating nothing — when any requested index is
outside `[0, pageCount)`; for valid non-empty requests it deletes highest
index first and the new document keeps exactly the pages whose index was
not requested, in their original order, so the new count is the original
count minus the number of unique requested indices. -/
theorem C7_delete_pages_contract {α : Type} (job : Job) (doc : List α)
    (pages : List ℤ) :
    (pagesInvalid pages doc.length ≠ [] →
      delete_pages job doc pages =
        (job, doc, .error (400, pagesInvalid pages doc.length))) ∧
    ((∀ p ∈ pages, 0 ≤ p ∧ p < (doc.length : ℤ)) → pages ≠ [] →
      ∃ newDoc : List α,
        delete_pages job doc pages =
          (deletePagesJobUpdate job newDoc.length, newDoc,
           .ok { deleted_pages := List.insertionSort (fun a b : ℤ => a ≤ b) pages,
                 original_page_count := doc.length,
                 new_page_count := newDoc.length }) ∧
        newDoc = keepAux doc 0 (pagesToDelete pages) ∧
        (∀ i : ℕ, i ∈ pagesToDelete pages ↔ (i : ℤ) ∈ pages) ∧
        newDoc.length = doc.length - pages.dedup.length ∧
        List.Sublist newDoc doc) := by
  constructor
  · intro h
    by_cases hp : pages = []
    · subst hp
      simp [pagesInvalid] at h
    · rw [delete_pages, if_neg hp, if_neg h]
  · intro hvalid hne
    have hinv : pagesInvalid pages doc.length = [] := by
      apply List.filter_eq_nil_iff.mpr
      intro a ha
      have := hvalid a ha
      simp only [decide_eq_true_eq]
      omega
    obtain ⟨hpair, hlt, hiff, hlen⟩ := pagesToDelete_spec pages doc.length hvalid
    refine ⟨List.foldl List.eraseIdx doc (pagesToDelete pages), ?_, ?_, hiff, ?_, ?_⟩
    · rw [delete_pages, if_neg hne, if_pos hinv]
    · exact foldl_eraseIdx_keepAux _ _ hpair hlt
    · rw [length_foldl_eraseIdx _ _ hpair hlt, hlen]
    · exact foldl_eraseIdx_sublist _ _

/-- C7 witness: the spec's scenario — a 5-page document, request `[2, 0]` —
is accepted, processed descending, and keeps pages 1, 3, 4 in order
(3 pages left). -/
theorem C7_delete_pages_contract_witness :
    (delete_pages baseJob ([10, 20, 30, 40, 50] : List ℕ) [2, 0]).2.1 = [20, 40, 50] ∧
    (delete_pages baseJob ([10, 20, 30] : List ℕ) [5, 1]).2.2 =
      .error (400, [5]) := by
  constructor
  · obtain ⟨d, heq, hkeep, -, -, -⟩ :=
      (C7_delete_pages_contract baseJob ([10, 20, 30, 40, 50] : List ℕ) [2, 0]).2
        (by decide) (by decide)
    rw [heq]
    rw [hkeep]
    decide
  · have h := (C7_delete_pages_contract baseJob ([10, 20, 30] : List ℕ) [5, 1]).1
      (by decide)
    rw [h]
    rfl
